import Mathlib

/-!
# Verification of the crash-backend game server

A shallow embedding of the deterministic game-simulation core of the
`crash-backend` Go repository, together with proofs and refutations of the
frozen specification claims.

Conventions of the embedding:

* Go `float64` arithmetic is embedded as exact rational (`ℚ`) arithmetic.
* Go's `*rand.Rand` stream of `Float64()` draws is embedded as a function
  `ℕ → ℚ` (the n-th draw) together with an explicit cursor threaded through
  the state, so that the exact draw-consumption order of the source is
  reproduced.
* Stateful Go loops become explicit step functions on state structures,
  iterated with `Function.iterate`.
* `*float64` fields (the candle `Close` pointer) are embedded as plain
  values; the source itself deep-copies the pointed-to value whenever a
  candle is frozen or broadcast, so value semantics match every observable
  snapshot.
-/

/-- Modelled from the spec: `NewSeededRNG` (src/game/prng.go) hashes the seed
string with `crypto/sha256` and feeds the leading 8 bytes to Go's
`math/rand.NewSource`.  The sha-256 digest and the `math/rand` generator are
standard-library collaborators whose code is not part of this repository, so,
following the spec's contract for the Seeded RNG ("hash the input material
with a cryptographic digest, take enough leading bits to seed a standard
pseudo-random generator"; "a pure deterministic function of the input string";
`next() -> float64 in [0,1)`), they are modelled as a deterministic 64-bit
string hash feeding a linear congruential generator, each output scaled to a
rational in `[0,1)` with the 53-bit granularity of Go's `Float64`. -/
def seedStringHash (s : String) : ℕ :=
  s.data.foldl (fun h c => (h * 31 + c.toNat) % 2 ^ 64) 5381

/-- One step of the modelled pseudo-random generator (stands in for Go's
`math/rand` source, which is standard-library code outside this repository). -/
def rngStep (x : ℕ) : ℕ :=
  (6364136223846793005 * x + 1442695040888963407) % 2 ^ 64

/-- The stream of `Float64()` draws produced by the modelled seeded generator:
`NewSeededRNG seed n` is the n-th draw, a rational in `[0,1)`. -/
def NewSeededRNG (seed : String) : ℕ → ℚ :=
  fun n => ((rngStep^[n + 1] (seedStringHash seed)) % 2 ^ 53 : ℕ) / (2 ^ 53 : ℚ)

/-- Every draw of the modelled generator lies in `[0,1)`, matching the
contract of Go's `Float64()`. -/
lemma NewSeededRNG_mem (seed : String) (n : ℕ) :
    0 ≤ NewSeededRNG seed n ∧ NewSeededRNG seed n < 1 := by
  unfold NewSeededRNG
  constructor
  · positivity
  · rw [div_lt_one (by positivity)]
    exact_mod_cast Nat.cast_lt.2 (Nat.mod_lt _ (by positivity)) |>.trans_le
      (by norm_num)

/-! ## C9: the crash game-history ring buffer (src/ws/crash_unified.go) -/

/-- `CrashGameHistory` (src/ws/crash_unified.go lines 18-24): immutable
snapshot of a finished crash game.  Candles are omitted here; they are
irrelevant to the ring-buffer claim and modelled separately below. -/
structure CrashGameHistoryEntry where
  gameId : String
  peakMultiplier : ℚ
  rugged : Bool
  timestamp : ℕ

/-- `MaxGameHistory` (src/ws/crash_unified.go line 34). -/
def MaxGameHistory : ℕ := 10

/-- The game-end append to `crashGameHistory` (src/ws/crash_unified.go lines
292-305): append the finished game, then, if the length exceeds
`MaxGameHistory`, keep only the last `MaxGameHistory` entries
(`crashGameHistory[len(crashGameHistory)-MaxGameHistory:]`). -/
def appendGameHistory (hist : List CrashGameHistoryEntry)
    (g : CrashGameHistoryEntry) : List CrashGameHistoryEntry :=
  let h := hist ++ [g]
  if MaxGameHistory < h.length then h.drop (h.length - MaxGameHistory) else h

lemma appendGameHistory_foldl (gs : List CrashGameHistoryEntry) :
    List.foldl appendGameHistory [] gs = gs.drop (gs.length - MaxGameHistory) := by
  induction gs using List.reverseRecOn with
  | nil => rfl
  | append_singleton gs g ih =>
      rw [List.foldl_append, List.foldl_cons, List.foldl_nil, ih]
      unfold appendGameHistory MaxGameHistory
      simp only [List.length_append, List.length_drop, List.length_singleton]
      by_cases hk : gs.length ≤ 9
      · have h1 : gs.length - 10 = 0 := by omega
        have h2 : gs.length + 1 - 10 = 0 := by omega
        simp [h1, h2, if_neg (by omega : ¬ 10 < gs.length - (gs.length - 10) + 1)]
      · have h10 : 10 ≤ gs.length := by omega
        have hlen : gs.length - (gs.length - 10) = 10 := by omega
        rw [hlen]
        rw [if_pos (by omega : 10 < 10 + 1)]
        have hdrop : (10 : ℕ) + 1 - 10 = 1 := by omega
        rw [hdrop]
        rw [List.drop_append_of_le_length
          (by simp [List.length_drop]; omega : 1 ≤ (gs.drop (gs.length - 10)).length),
          List.drop_drop,
          List.drop_append_of_le_length (by omega : gs.length + 1 - 10 ≤ gs.length)]
        congr 2
        omega

/-- Claim C9: after any number of game-end appends to the crash game history
ring buffer, the history length is at most 10 (`MaxGameHistory`), and the
buffer contains exactly the most recently appended games in insertion order,
with the oldest evicted first once capacity is exceeded. -/
theorem crashGameHistory_ring_buffer (gs : List CrashGameHistoryEntry) :
    List.foldl appendGameHistory [] gs = gs.drop (gs.length - MaxGameHistory) ∧
    (List.foldl appendGameHistory [] gs).length ≤ MaxGameHistory := by
  refine ⟨appendGameHistory_foldl gs, ?_⟩
  rw [appendGameHistory_foldl gs, List.length_drop]
  unfold MaxGameHistory
  omega

/-! ## C10: the crash cashout handler (src/ws/unified.go lines 549-640) -/

/-- The fields of an inbound `crash_cashout` client message that
`handleCrashCashout` reads (src/ws/unified.go lines 552-557). -/
structure CrashCashoutMessage where
  playerAddress : String
  userId : String
  gameId : String
  cashoutMultiplier : ℚ
  betAmount : ℚ
  entryMultiplier : ℚ

/-- The `crash_cashout_result` message sent back to the requesting user
(src/ws/unified.go lines 630-639). -/
structure CrashCashoutResult where
  success : Bool
  cashoutMultiplier : ℚ
  entryMultiplier : ℚ
  betAmount : ℚ
  payoutAmount : ℚ
  profit : ℚ

/-- The package-level server state visible to `handleCrashCashout`: the live
crash game's status and the active-bettor registry
(src/ws/crash_unified.go lines 36-51).  The handler mutates only the
bettor registry (`RemoveActiveBettor`). -/
structure CrashServerState where
  gameStatus : String
  currentPrice : ℚ
  activeBettors : List (String × ℚ × ℚ)

/-- `handleCrashCashout` (src/ws/unified.go lines 549-640): reads the bet
amount, entry multiplier and cashout multiplier verbatim from the client's
message, computes `profit = betAmount * (cashoutMultiplier - 1)` and
`payoutAmount = betAmount + profit`, removes the bettor from the registry, and
sends a `crash_cashout_result` with `success = true`.  The database and
contract side effects are fire-and-forget collaborators and have no influence
on the reply. -/
def handleCrashCashout (st : CrashServerState) (msg : CrashCashoutMessage) :
    CrashServerState × CrashCashoutResult :=
  let profit := msg.betAmount * (msg.cashoutMultiplier - 1)
  let payoutAmount := msg.betAmount + profit
  let st' := { st with
    activeBettors := st.activeBettors.filter (fun b => b.1 != msg.playerAddress) }
  (st', { success := true
          cashoutMultiplier := msg.cashoutMultiplier
          entryMultiplier := msg.entryMultiplier
          betAmount := msg.betAmount
          payoutAmount := payoutAmount
          profit := profit })

/-- Claim C10: for every inbound `crash_cashout` message the server computes
the payout as `betAmount + betAmount * (cashoutMultiplier - 1)` — that is,
`betAmount * cashoutMultiplier` — from the client-supplied fields alone, never
re-deriving the multiplier from server-side game state, and always replies to
the requesting user with `success = true`, independent of the live game's
phase or current price. -/
theorem handleCrashCashout_trusts_client (st₁ st₂ : CrashServerState)
    (msg : CrashCashoutMessage) :
    (handleCrashCashout st₁ msg).2 = (handleCrashCashout st₂ msg).2 ∧
    (handleCrashCashout st₁ msg).2.success = true ∧
    (handleCrashCashout st₁ msg).2.payoutAmount
      = msg.betAmount + msg.betAmount * (msg.cashoutMultiplier - 1) ∧
    (handleCrashCashout st₁ msg).2.payoutAmount
      = msg.betAmount * msg.cashoutMultiplier ∧
    (handleCrashCashout st₁ msg).2.cashoutMultiplier = msg.cashoutMultiplier ∧
    (handleCrashCashout st₁ msg).2.betAmount = msg.betAmount ∧
    (handleCrashCashout st₁ msg).2.entryMultiplier = msg.entryMultiplier := by
  refine ⟨rfl, rfl, rfl, ?_, rfl, rfl, rfl⟩
  show msg.betAmount + msg.betAmount * (msg.cashoutMultiplier - 1)
      = msg.betAmount * msg.cashoutMultiplier
  ring

/-! ## C8: chat subscribe snapshot ordering (src/ws/unified.go) -/

/-- A chat message as stored in the in-memory `chatHistory` buffer and
broadcast to subscribers (src/ws/unified.go lines 482-487). -/
structure ChatMessage where
  playerAddress : String
  message : String
  timestamp : String

/-- The per-client outbound mailbox is a bounded FIFO channel
(`Send chan []byte, 256`, src/ws/unified.go line 241).  `broadcastToSubscribers`
(lines 200-224) enqueues with a non-blocking send and drops the message for
this client when the mailbox is full. -/
def enqueueLive (cap : ℕ) (mailbox : List ChatMessage) (m : ChatMessage) :
    List ChatMessage :=
  if mailbox.length < cap then mailbox ++ [m] else mailbox

/-- `sendInitialData` for the `"chat"` channel (src/ws/unified.go lines
393-407): a snapshot of the stored history is copied under the lock and each
message is pushed onto the client's mailbox in original order with a blocking
send (which preserves FIFO order and never drops). -/
def sendInitialDataChat (mailbox : List ChatMessage) (hist : List ChatMessage) :
    List ChatMessage :=
  mailbox ++ hist

/-- The client's mailbox after its `subscribe` to `"chat"` is handled
(src/ws/unified.go lines 298-307: the subscription flag is set, then
`sendInitialData` pushes the history snapshot before `handleMessage` returns)
followed by the hub broadcasting the list `posts` of chat messages published
after the subscribe call returned, in publish order. -/
def mailboxAfterChatSubscribe (cap : ℕ) (mailbox hist posts : List ChatMessage) :
    List ChatMessage :=
  posts.foldl (enqueueLive cap) (sendInitialDataChat mailbox hist)

lemma foldl_enqueueLive_sublist (cap : ℕ) (posts : List ChatMessage) :
    ∀ q : List ChatMessage, ∃ posts' : List ChatMessage,
      List.Sublist posts' posts ∧
      posts.foldl (enqueueLive cap) q = q ++ posts' := by
  induction posts with
  | nil => exact fun q => ⟨[], List.Sublist.refl [], by simp⟩
  | cons m rest ih =>
      intro q
      rw [List.foldl_cons]
      unfold enqueueLive
      by_cases h : q.length < cap
      · rw [if_pos h]
        obtain ⟨s, hs, hq⟩ := ih (q ++ [m])
        exact ⟨m :: s, List.Sublist.cons₂ m hs, by simpa using hq⟩
      · rw [if_neg h]
        obtain ⟨s, hs, hq⟩ := ih q
        exact ⟨s, List.Sublist.cons m hs, hq⟩

/-- Claim C8: when a client subscribes to the `"chat"` topic while `hist` is
the stored chat history, its mailbox receives exactly those messages, in their
original order, before any chat message published after the subscribe call
returns: whatever the prior mailbox content and the mailbox capacity, the
mailbox after the subscribe and the later publishes is the prior content,
followed by the full history snapshot in order, followed by an
order-preserving selection (drop-on-full) of the later publishes. -/
theorem chat_subscribe_snapshot_order (cap : ℕ)
    (mailbox hist posts : List ChatMessage) :
    ∃ posts' : List ChatMessage,
      List.Sublist posts' posts ∧
      mailboxAfterChatSubscribe cap mailbox hist posts
        = mailbox ++ hist ++ posts' := by
  obtain ⟨s, hs, hq⟩ := foldl_enqueueLive_sublist cap posts (mailbox ++ hist)
  exact ⟨s, hs, by simpa [mailboxAfterChatSubscribe, sendInitialDataChat] using hq⟩

/-! ## C7: candle merging (src/ws/server.go lines 27-76) -/

/-- `game.CandleGroup` (src/unnamed/part_009 lines 3-12).  The Go `Close`
field is a `*float64`; it is embedded as a plain value (see the header note:
the source deep-copies the dereferenced value at every freeze/merge). -/
structure CandleGroup where
  Open : ℚ
  Close : ℚ
  Max : ℚ
  Min : ℚ
  ValueList : List ℚ
  StartTime : ℤ
  DurationMs : ℤ
  IsComplete : Bool
deriving DecidableEq

/-- The merge of one adjacent pair inside `mergeGroups`
(src/ws/server.go lines 31-51). -/
def mergeCandlePair (g1 g2 : CandleGroup) : CandleGroup :=
  { Open := g1.Open
    Close := g2.Close
    Max := max g1.Max g2.Max
    Min := min g1.Min g2.Min
    ValueList := g1.ValueList ++ g2.ValueList
    StartTime := g1.StartTime
    DurationMs := g1.DurationMs * 2
    IsComplete := true }

/-- The deep copy of an odd trailing candle (src/ws/server.go lines 53-70). -/
def copyCandleGroup (g : CandleGroup) : CandleGroup :=
  { Open := g.Open
    Close := g.Close
    Max := g.Max
    Min := g.Min
    ValueList := g.ValueList
    StartTime := g.StartTime
    DurationMs := g.DurationMs
    IsComplete := g.IsComplete }

/-- The pairwise pass of `mergeGroups` (src/ws/server.go lines 28-70): the
index loop `for i := 0; i < len(groups)-1; i += 2` merges adjacent pairs and a
trailing odd candle is appended as a copy. -/
def mergePairs : List CandleGroup → List CandleGroup
  | [] => []
  | [g] => [copyCandleGroup g]
  | g1 :: g2 :: rest => mergeCandlePair g1 g2 :: mergePairs rest

/-- `mergeGroups` (src/ws/server.go lines 27-76): pairwise-merge and double
the group duration for subsequent candles. -/
def mergeGroups (groups : List CandleGroup) (currentDuration : ℤ) :
    List CandleGroup × ℤ :=
  (mergePairs groups, currentDuration * 2)

/-- The minimum of a list of rationals, `none` on the empty list. -/
def listMin : List ℚ → Option ℚ
  | [] => none
  | a :: l => some ((listMin l).elim a (min a))

/-- The maximum of a list of rationals, `none` on the empty list. -/
def listMax : List ℚ → Option ℚ
  | [] => none
  | a :: l => some ((listMax l).elim a (max a))

lemma listMin_mergePairs :
    ∀ l : List CandleGroup,
      listMin ((mergePairs l).map CandleGroup.Min) = listMin (l.map CandleGroup.Min)
  | [] => rfl
  | [g] => by simp [mergePairs, copyCandleGroup, listMin]
  | g1 :: g2 :: rest => by
      have ih := listMin_mergePairs rest
      simp only [mergePairs, List.map_cons, listMin, mergeCandlePair, ih]
      cases h : listMin (rest.map CandleGroup.Min) with
      | none => simp [Option.elim]
      | some m => simp [Option.elim, min_assoc]

lemma listMax_mergePairs :
    ∀ l : List CandleGroup,
      listMax ((mergePairs l).map CandleGroup.Max) = listMax (l.map CandleGroup.Max)
  | [] => rfl
  | [g] => by simp [mergePairs, copyCandleGroup, listMax]
  | g1 :: g2 :: rest => by
      have ih := listMax_mergePairs rest
      simp only [mergePairs, List.map_cons, listMax, mergeCandlePair, ih]
      cases h : listMax (rest.map CandleGroup.Max) with
      | none => simp [Option.elim]
      | some m => simp [Option.elim, max_assoc]

/-- Claim C7: `mergeGroups` pairwise-merges adjacent candles (merged open =
first candle's open, merged close = last candle's close, merged max/min = the
max/min of both, duration doubled), carries an odd trailing candle over
unmerged, doubles the current group duration, and never changes the overall
extremes: the global minimum over the candles' `Min` fields and the global
maximum over the candles' `Max` fields are the same before and after. -/
theorem mergeGroups_spec (g1 g2 : CandleGroup) (rest l : List CandleGroup)
    (dur : ℤ) :
    mergeGroups l dur = (mergePairs l, dur * 2) ∧
    mergePairs ([] : List CandleGroup) = [] ∧
    mergePairs [g1] = [g1] ∧
    mergePairs (g1 :: g2 :: rest) = mergeCandlePair g1 g2 :: mergePairs rest ∧
    (mergeCandlePair g1 g2).Open = g1.Open ∧
    (mergeCandlePair g1 g2).Close = g2.Close ∧
    (mergeCandlePair g1 g2).Max = max g1.Max g2.Max ∧
    (mergeCandlePair g1 g2).Min = min g1.Min g2.Min ∧
    (mergeCandlePair g1 g2).DurationMs = g1.DurationMs * 2 ∧
    listMin (((mergeGroups l dur).1).map CandleGroup.Min)
      = listMin (l.map CandleGroup.Min) ∧
    listMax (((mergeGroups l dur).1).map CandleGroup.Max)
      = listMax (l.map CandleGroup.Max) := by
  refine ⟨rfl, rfl, ?_, rfl, rfl, rfl, rfl, rfl, rfl, ?_, ?_⟩
  · simp [mergePairs, copyCandleGroup]
  · exact listMin_mergePairs l
  · exact listMax_mergePairs l

/-! ## C4: the candleflip game (src/unnamed/part_009) -/

/-- Constants of the candleflip engine (src/unnamed/part_009 lines 29-36). -/
def CandleflipBigMoveChance : ℚ := 1 / 100

def CandleflipBigMovePct : ℚ := 1 / 5

def CandleflipSmallMovePctMin : ℚ := 1 / 100

def CandleflipSmallMovePctMax : ℚ := 1 / 20

def CandleflipTotalTicks : ℕ := 40

/-- `GenerateCandleflipPrice` (src/unnamed/part_009 lines 38-66): one tick of
the candleflip walk.  Takes the RNG stream and the current cursor, returns the
new price and the advanced cursor (2 draws consumed for a big move, 3 for a
small move, mirroring the source's draw order: chance, [magnitude,] sign). -/
def GenerateCandleflipPrice (u : ℕ → ℚ) (c : ℕ) (lastPrice : ℚ) : ℚ × ℕ :=
  if u c < CandleflipBigMoveChance then
    let percentChange :=
      if u (c + 1) < 1 / 2 then -CandleflipBigMovePct else CandleflipBigMovePct
    let newPrice := lastPrice * (1 + percentChange)
    (if newPrice < 0 then 0 else newPrice, c + 2)
  else
    let magnitude := CandleflipSmallMovePctMin
      + u (c + 1) * (CandleflipSmallMovePctMax - CandleflipSmallMovePctMin)
    let percentChange := if u (c + 2) < 1 / 2 then -magnitude else magnitude
    let newPrice := lastPrice * (1 + percentChange)
    (if newPrice < 0 then 0 else newPrice, c + 3)

/-- The price and cursor after `n` candleflip ticks from the starting price
`1.0` (the loop of `VerifyCandleflip`, src/unnamed/part_009 lines 73-78). -/
def candleflipRun (u : ℕ → ℚ) : ℕ → ℚ × ℕ
  | 0 => (1, 0)
  | n + 1 =>
    let pc := candleflipRun u n
    GenerateCandleflipPrice u pc.2 pc.1

/-- `VerifyCandleflip` (src/unnamed/part_009 lines 68-85) over an explicit RNG
stream: RED wins if the final price after 40 ticks is below `1.0`, GREEN
otherwise. -/
def VerifyCandleflipWith (u : ℕ → ℚ) : String :=
  if (candleflipRun u CandleflipTotalTicks).1 < 1 then "RED" else "GREEN"

/-- `VerifyCandleflip serverSeed` seeds the stream from
`serverSeed + "-candleflip"` (src/unnamed/part_009 lines 69-71). -/
def VerifyCandleflip (serverSeed : String) : String :=
  VerifyCandleflipWith (NewSeededRNG (serverSeed ++ "-candleflip"))

/-- The raw random draws one candleflip tick consumes: the branch-selection
draw (`chance`), the magnitude draw of the small-move branch (`mag`, unused by
the big-move branch) and the direction draw (`sign`). -/
structure CandleflipDraw where
  chance : ℚ
  mag : ℚ
  sign : ℚ
deriving DecidableEq

/-- The percentage change a tick applies, as a function of its draws
(src/unnamed/part_009 lines 40-58): a big move of ±20% when
`chance < CandleflipBigMoveChance`, otherwise a small move of ±(1%..5%); in
both branches the direction is negative exactly when `sign < 0.5`. -/
def candleflipPercent (d : CandleflipDraw) : ℚ :=
  if d.chance < CandleflipBigMoveChance then
    if d.sign < 1 / 2 then -CandleflipBigMovePct else CandleflipBigMovePct
  else
    let magnitude := CandleflipSmallMovePctMin
      + d.mag * (CandleflipSmallMovePctMax - CandleflipSmallMovePctMin)
    if d.sign < 1 / 2 then -magnitude else magnitude

/-- One candleflip tick in terms of its draws (src/unnamed/part_009 lines
60-65, including the negative-price floor). -/
def candleflipTick (lastPrice : ℚ) (d : CandleflipDraw) : ℚ :=
  let newPrice := lastPrice * (1 + candleflipPercent d)
  if newPrice < 0 then 0 else newPrice

/-- Reads one tick's draws from the stream at cursor `c` and advances the
cursor, mirroring the consumption order of `GenerateCandleflipPrice`. -/
def candleflipDrawAt (u : ℕ → ℚ) (c : ℕ) : CandleflipDraw × ℕ :=
  if u c < CandleflipBigMoveChance then (⟨u c, 0, u (c + 1)⟩, c + 2)
  else (⟨u c, u (c + 1), u (c + 2)⟩, c + 3)

/-- The list of draws consumed by the first `n` candleflip ticks. -/
def candleflipDraws (u : ℕ → ℚ) : ℕ → List CandleflipDraw × ℕ
  | 0 => ([], 0)
  | n + 1 =>
    let dl := candleflipDraws u n
    let d := candleflipDrawAt u dl.2
    (dl.1 ++ [d.1], d.2)

/-- The candleflip game on a list of per-tick draws, from starting price 1. -/
def simCandleflip (ds : List CandleflipDraw) : ℚ :=
  ds.foldl candleflipTick 1

/-- The stream tick equals the draw-record tick on the draws read at the
cursor. -/
lemma GenerateCandleflipPrice_eq_tick (u : ℕ → ℚ) (c : ℕ) (p : ℚ) :
    GenerateCandleflipPrice u c p
      = (candleflipTick p (candleflipDrawAt u c).1, (candleflipDrawAt u c).2) := by
  unfold GenerateCandleflipPrice candleflipDrawAt candleflipTick candleflipPercent
  by_cases h : u c < CandleflipBigMoveChance <;> simp [h]

/-- The stream-based run is the draws-model run on the consumed draws. -/
lemma candleflipRun_eq_draws (u : ℕ → ℚ) :
    ∀ n : ℕ, (candleflipRun u n).1 = (candleflipDraws u n).1.foldl candleflipTick 1
      ∧ (candleflipRun u n).2 = (candleflipDraws u n).2
  | 0 => ⟨rfl, rfl⟩
  | n + 1 => by
      obtain ⟨h1, h2⟩ := candleflipRun_eq_draws u n
      constructor
      · show (GenerateCandleflipPrice u (candleflipRun u n).2 (candleflipRun u n).1).1 = _
        rw [GenerateCandleflipPrice_eq_tick, h1, h2]
        simp [candleflipDraws, List.foldl_append]
      · show (GenerateCandleflipPrice u (candleflipRun u n).2 (candleflipRun u n).1).2 = _
        rw [GenerateCandleflipPrice_eq_tick, h2]
        simp [candleflipDraws]

/-- Validity of a tick's draws: the magnitude draw is a `Float64` value in
`[0,1)` and the direction draw does not hit the measure-zero threshold
exactly. -/
def validCandleflipDraw (d : CandleflipDraw) : Prop :=
  0 ≤ d.mag ∧ d.mag < 1 ∧ d.sign ≠ 1 / 2

instance (d : CandleflipDraw) : Decidable (validCandleflipDraw d) := by
  unfold validCandleflipDraw
  infer_instance

/-- Inverting the fair direction draw of one tick (the other draws are kept). -/
def negDraw (d : CandleflipDraw) : CandleflipDraw :=
  ⟨d.chance, d.mag, 1 - d.sign⟩

lemma candleflipPercent_bounds (d : CandleflipDraw) (hd : validCandleflipDraw d) :
    candleflipPercent d ≠ 0 ∧ -(1 / 5) ≤ candleflipPercent d
      ∧ candleflipPercent d ≤ 1 / 5 := by
  obtain ⟨h0, h1, -⟩ := hd
  unfold candleflipPercent CandleflipBigMoveChance CandleflipBigMovePct
    CandleflipSmallMovePctMin CandleflipSmallMovePctMax
  split_ifs <;> constructor <;> try constructor
  all_goals nlinarith

lemma candleflipPercent_negDraw (d : CandleflipDraw) (hd : validCandleflipDraw d) :
    candleflipPercent (negDraw d) = -(candleflipPercent d) := by
  obtain ⟨-, -, hs⟩ := hd
  unfold candleflipPercent negDraw
  simp only
  have hcase : (1 - d.sign < 1 / 2 ∧ ¬ d.sign < 1 / 2)
      ∨ (¬ (1 - d.sign < 1 / 2) ∧ d.sign < 1 / 2) := by
    rcases lt_or_gt_of_ne hs with h | h
    · right; constructor <;> [linarith; exact h]
    · left; constructor <;> [linarith; linarith]
  rcases hcase with ⟨ha, hb⟩ | ⟨ha, hb⟩ <;> split_ifs <;> simp_all

lemma candleflipTick_no_floor (p : ℚ) (hp : 0 < p) (d : CandleflipDraw)
    (hd : validCandleflipDraw d) :
    candleflipTick p d = p * (1 + candleflipPercent d) := by
  obtain ⟨-, hlo, -⟩ := candleflipPercent_bounds d hd
  unfold candleflipTick
  rw [if_neg]
  push_neg
  nlinarith

/-- The sign-flip pairing: running the same draws with every direction draw
inverted multiplies, tick by tick, the product of the two runs' prices by
`1 - pc²` with `pc ≠ 0`, so the product strictly decreases. -/
lemma candleflip_pair_product :
    ∀ ds : List CandleflipDraw, (∀ d ∈ ds, validCandleflipDraw d) →
    ∀ a b : ℚ, 0 < a → 0 < b →
      0 < ds.foldl candleflipTick a
      ∧ 0 < (ds.map negDraw).foldl candleflipTick b
      ∧ ds.foldl candleflipTick a * (ds.map negDraw).foldl candleflipTick b ≤ a * b
      ∧ (ds ≠ [] →
          ds.foldl candleflipTick a * (ds.map negDraw).foldl candleflipTick b < a * b)
  | [], _, a, b, ha, hb => ⟨ha, hb, le_of_eq rfl, fun h => absurd rfl h⟩
  | d :: ds, hv, a, b, ha, hb => by
      have hd : validCandleflipDraw d := hv d (List.mem_cons_self d ds)
      have hds : ∀ x ∈ ds, validCandleflipDraw x :=
        fun x hx => hv x (List.mem_cons_of_mem d hx)
      obtain ⟨hpc0, hpclo, hpchi⟩ := candleflipPercent_bounds d hd
      have ha' : 0 < a * (1 + candleflipPercent d) := by nlinarith
      have hb' : 0 < b * (1 - candleflipPercent d) := by nlinarith
      obtain ⟨h1, h2, h3, -⟩ := candleflip_pair_product ds hds
        (a * (1 + candleflipPercent d)) (b * (1 - candleflipPercent d)) ha' hb'
      have hsq : 0 < candleflipPercent d ^ 2 := by positivity
      have hstep : a * (1 + candleflipPercent d) * (b * (1 - candleflipPercent d))
          < a * b := by nlinarith [mul_pos ha hb, mul_pos (mul_pos ha hb) hsq]
      have hta : candleflipTick a d = a * (1 + candleflipPercent d) :=
        candleflipTick_no_floor a ha d hd
      have htb : candleflipTick b (negDraw d) = b * (1 - candleflipPercent d) := by
        rw [candleflipTick_no_floor b hb (negDraw d)
          ⟨hd.1, hd.2.1, by simpa [negDraw] using fun h => hd.2.2 (by linarith)⟩,
          candleflipPercent_negDraw d hd]
        ring
      have hlt : (d :: ds).foldl candleflipTick a
          * ((d :: ds).map negDraw).foldl candleflipTick b < a * b := by
        calc (d :: ds).foldl candleflipTick a
              * ((d :: ds).map negDraw).foldl candleflipTick b
            ≤ a * (1 + candleflipPercent d) * (b * (1 - candleflipPercent d)) := by
              simpa [List.foldl_cons, hta, htb] using h3
          _ < a * b := hstep
      refine ⟨?_, ?_, le_of_lt hlt, fun _ => hlt⟩
      · simpa [List.foldl_cons, hta] using h1
      · simpa [List.foldl_cons, htb] using h2

/-- The direction-draw pattern of one down-up pair of big moves, used as a
concrete refutation input below. -/
def candleflipDownUpPair : List CandleflipDraw :=
  [⟨0, 0, 0⟩, ⟨0, 0, 9 / 10⟩]

/-- Forty concrete candleflip ticks: twenty big down moves alternating with
twenty big up moves. -/
def candleflipCexDraws : List CandleflipDraw :=
  candleflipDownUpPair ++ candleflipDownUpPair ++ candleflipDownUpPair
    ++ candleflipDownUpPair ++ candleflipDownUpPair ++ candleflipDownUpPair
    ++ candleflipDownUpPair ++ candleflipDownUpPair ++ candleflipDownUpPair
    ++ candleflipDownUpPair ++ candleflipDownUpPair ++ candleflipDownUpPair
    ++ candleflipDownUpPair ++ candleflipDownUpPair ++ candleflipDownUpPair
    ++ candleflipDownUpPair ++ candleflipDownUpPair ++ candleflipDownUpPair
    ++ candleflipDownUpPair ++ candleflipDownUpPair

/-- The formal reading of claim C4's "unbiased 50/50 by construction, since
up/down branches are chosen with equal probability at every tick": inverting
every fair (equal-probability) direction draw of a 40-tick candleflip game
would flip the outcome, pairing GREEN runs with RED runs one-to-one. -/
def candleflipUnbiasedClaim : Prop :=
  ∀ ds : List CandleflipDraw,
    (∀ d ∈ ds, (0 ≤ d.chance ∧ d.chance < 1) ∧ (0 ≤ d.mag ∧ d.mag < 1)
      ∧ (0 ≤ d.sign ∧ d.sign < 1)) →
    ds.length = CandleflipTotalTicks →
    (1 ≤ simCandleflip ds ↔ simCandleflip (ds.map negDraw) < 1)

/-- Counterexample to claim C4: the candleflip game is not unbiased.  On the
concrete 40-tick game of alternating big down/up moves, both the game and its
direction-inverted mirror end below the 1.0 starting price (each down-up pair
multiplies the price by (4/5)·(6/5) = 24/25 < 1), so equal-probability
direction draws do not pair GREEN with RED outcomes 50/50: the endpoint
comparison is biased toward RED. -/
theorem candleflip_unbiased_counterexample : ¬ candleflipUnbiasedClaim := by
  intro h
  have hmem : ∀ d ∈ candleflipCexDraws,
      (0 ≤ d.chance ∧ d.chance < 1) ∧ (0 ≤ d.mag ∧ d.mag < 1)
        ∧ (0 ≤ d.sign ∧ d.sign < 1) := by
    norm_num [candleflipCexDraws, candleflipDownUpPair]
  have hlen : candleflipCexDraws.length = CandleflipTotalTicks := by rfl
  have hiff := h candleflipCexDraws hmem hlen
  have h1 : simCandleflip candleflipCexDraws < 1 := by
    norm_num [candleflipCexDraws, candleflipDownUpPair, simCandleflip,
      candleflipTick, candleflipPercent, CandleflipBigMoveChance,
      CandleflipBigMovePct, CandleflipSmallMovePctMin, CandleflipSmallMovePctMax]
  have h2 : simCandleflip (candleflipCexDraws.map negDraw) < 1 := by
    norm_num [candleflipCexDraws, candleflipDownUpPair, simCandleflip, negDraw,
      candleflipTick, candleflipPercent, CandleflipBigMoveChance,
      CandleflipBigMovePct, CandleflipSmallMovePctMin, CandleflipSmallMovePctMax]
  exact absurd (hiff.mpr h2) (not_le.2 h1)

/-- Claim C4 (amended): at every tick of the candleflip simulation the up and
down branches are chosen by comparing a fair draw against the 0.5 threshold
(in both the big-move and the small-move branch — see `candleflipPercent` and
`GenerateCandleflipPrice`), and the winner is GREEN if and only if the final
price after the 40 fixed ticks is at least 1.0; the stream simulation equals
the per-tick-draw simulation on the draws it consumes.  However the game is
not unbiased 50/50: inverting every fair direction draw never turns one GREEN
run into another GREEN run (at most one of each inverted pair of runs ends at
or above the 1.0 start), while some pairs — see the counterexample theorem
refuting the claim as stated — end RED on both sides, so the GREEN/RED
split over fair sign draws is structurally biased toward RED. -/
theorem candleflip_green_iff_and_bias (u : ℕ → ℚ) (ds : List CandleflipDraw) :
    (VerifyCandleflipWith u = "GREEN" ↔ ¬ (candleflipRun u CandleflipTotalTicks).1 < 1)
    ∧ (candleflipRun u CandleflipTotalTicks).1
        = simCandleflip (candleflipDraws u CandleflipTotalTicks).1
    ∧ ((∀ d ∈ ds, validCandleflipDraw d) → ds ≠ [] →
        ¬ (1 ≤ simCandleflip ds ∧ 1 ≤ simCandleflip (ds.map negDraw))) := by
  refine ⟨?_, (candleflipRun_eq_draws u CandleflipTotalTicks).1, ?_⟩
  · unfold VerifyCandleflipWith
    by_cases hlt : (candleflipRun u CandleflipTotalTicks).1 < 1
    · rw [if_pos hlt]
      simp [hlt]
    · rw [if_neg hlt]
      simp [hlt]
  · intro hv hne ⟨hA, hB⟩
    obtain ⟨-, -, -, hstrict⟩ := candleflip_pair_product ds hv 1 1 one_pos one_pos
    have hprod := hstrict hne
    simp only [simCandleflip] at hA hB
    nlinarith [hA, hB, hprod]

/-- Witness for `candleflip_green_iff_and_bias` at a concrete one-tick draw
list and stream. -/
theorem candleflip_green_iff_and_bias_witness :
    (∀ d ∈ [(⟨0, 0, 0⟩ : CandleflipDraw)], validCandleflipDraw d)
    ∧ ([(⟨0, 0, 0⟩ : CandleflipDraw)] ≠ [])
    ∧ ¬ (1 ≤ simCandleflip [(⟨0, 0, 0⟩ : CandleflipDraw)]
        ∧ 1 ≤ simCandleflip ([(⟨0, 0, 0⟩ : CandleflipDraw)].map negDraw)) :=
  ⟨by norm_num [validCandleflipDraw], by simp,
    (candleflip_green_iff_and_bias (fun _ => 0) [⟨0, 0, 0⟩]).2.2
      (by norm_num [validCandleflipDraw]) (by simp)⟩

/-! ## C6: the crash-loop candle aggregator (src/ws/crash_unified.go) -/

/-- The candle-grouping state of the crash game loop
(src/ws/crash_unified.go lines 117-121). -/
structure AggregatorState where
  groups : List CandleGroup
  currentGroup : Option CandleGroup
  groupDuration : ℤ
  groupStartTime : ℤ

/-- `InitialGroupDurationMs` (src/ws/server.go line 23). -/
def InitialGroupDurationMs : ℤ := 5000

/-- `MergeThreshold` (src/ws/server.go line 24). -/
def MergeThreshold : ℕ := 30

/-- A fresh in-progress candle opened at `price`
(src/ws/crash_unified.go lines 164-174 and 199-209). -/
def newCandleGroup (price : ℚ) (now dur : ℤ) : CandleGroup :=
  { Open := price
    Close := price
    Max := price
    Min := price
    ValueList := [price]
    StartTime := now
    DurationMs := dur
    IsComplete := false }

/-- Freezing the elapsed current candle (src/ws/crash_unified.go lines
179-191): a deep copy carrying the dereferenced final close value and an empty
value list. -/
def completeCandleGroup (c : CandleGroup) : CandleGroup :=
  { Open := c.Open
    Close := c.Close
    Max := c.Max
    Min := c.Min
    ValueList := []
    StartTime := c.StartTime
    DurationMs := c.DurationMs
    IsComplete := true }

/-- The candle-grouping logic run on each simulation tick
(src/ws/crash_unified.go lines 161-218): open a candle if none exists;
freeze the current candle and open a new one when its duration has elapsed
(merging once `MergeThreshold` completed candles accumulate); otherwise extend
the current candle. -/
def crashCandleTick (st : AggregatorState) (price : ℚ) (now : ℤ) :
    AggregatorState :=
  match st.currentGroup with
  | none =>
      { st with
        currentGroup := some (newCandleGroup price now st.groupDuration)
        groupStartTime := now }
  | some cur =>
      if st.groupDuration ≤ now - st.groupStartTime then
        let groups1 := st.groups ++ [completeCandleGroup cur]
        let merged := if MergeThreshold ≤ groups1.length
          then mergeGroups groups1 st.groupDuration
          else (groups1, st.groupDuration)
        { groups := merged.1
          currentGroup := some (newCandleGroup price now merged.2)
          groupDuration := merged.2
          groupStartTime := now }
      else
        let updated : CandleGroup :=
          { Open := cur.Open
            Close := price
            Max := max cur.Max price
            Min := min cur.Min price
            ValueList := cur.ValueList ++ [price]
            StartTime := cur.StartTime
            DurationMs := cur.DurationMs
            IsComplete := cur.IsComplete }
        { st with currentGroup := some updated }

/-- Completion of the final candle at game end (src/ws/crash_unified.go lines
250-271): when the game rugged, the close value is forced to `0` and the
candle's min is set to `0` before freezing. -/
def finalizeCrashCandles (st : AggregatorState) (rugged : Bool) :
    List CandleGroup :=
  match st.currentGroup with
  | none => st.groups
  | some cur =>
      if cur.IsComplete then st.groups
      else
        let finalCloseValue := if rugged then 0 else cur.Close
        let curMin := if rugged then 0 else cur.Min
        st.groups ++
          [{ Open := cur.Open
             Close := finalCloseValue
             Max := cur.Max
             Min := curMin
             ValueList := []
             StartTime := cur.StartTime
             DurationMs := cur.DurationMs
             IsComplete := true }]

/-- The full candle history produced by one crash game from its sequence of
(price, timestamp) ticks and its rug outcome. -/
def runCrashCandles (ticks : List (ℚ × ℤ)) (rugged : Bool) : List CandleGroup :=
  finalizeCrashCandles
    (ticks.foldl (fun st t => crashCandleTick st t.1 t.2)
      ⟨[], none, InitialGroupDurationMs, 0⟩) rugged

/-- The OHLC candle invariant of the spec: `min ≤ open ≤ max` and
`min ≤ close ≤ max`. -/
def candleInv (c : CandleGroup) : Prop :=
  c.Min ≤ c.Open ∧ c.Open ≤ c.Max ∧ c.Min ≤ c.Close ∧ c.Close ≤ c.Max

lemma candleInv_mergeCandlePair {g1 g2 : CandleGroup}
    (h1 : candleInv g1) (h2 : candleInv g2) :
    candleInv (mergeCandlePair g1 g2) := by
  obtain ⟨a1, b1, c1, d1⟩ := h1
  obtain ⟨a2, b2, c2, d2⟩ := h2
  exact ⟨le_trans (min_le_left _ _) a1,
    le_trans b1 (le_max_left _ _),
    le_trans (min_le_right _ _) c2,
    le_trans d2 (le_max_right _ _)⟩

lemma candleInv_mergePairs :
    ∀ l : List CandleGroup, (∀ c ∈ l, candleInv c) →
      ∀ c ∈ mergePairs l, candleInv c
  | [], _, c, hc => absurd hc (List.not_mem_nil c)
  | [g], h, c, hc => by
      simp only [mergePairs, List.mem_singleton] at hc
      subst hc
      simpa [copyCandleGroup] using h g (List.mem_singleton.2 rfl)
  | g1 :: g2 :: rest, h, c, hc => by
      rcases List.mem_cons.1 hc with hc | hc
      · subst hc
        exact candleInv_mergeCandlePair
          (h g1 (by simp)) (h g2 (by simp))
      · exact candleInv_mergePairs rest
          (fun x hx => h x (by simp [hx])) c hc

/-- The aggregator-state invariant: every completed candle satisfies the OHLC
invariant, and the in-progress candle additionally has a nonnegative min. -/
def aggInv (st : AggregatorState) : Prop :=
  (∀ c ∈ st.groups, candleInv c) ∧
  (∀ cur, st.currentGroup = some cur → candleInv cur ∧ 0 ≤ cur.Min)

lemma crashCandleTick_aggInv (st : AggregatorState) (price : ℚ) (now : ℤ)
    (hst : aggInv st) (hp : 0 ≤ price) :
    aggInv (crashCandleTick st price now) := by
  obtain ⟨hg, hc⟩ := hst
  obtain ⟨groups, curOpt, dur, start⟩ := st
  cases curOpt with
  | none =>
      refine ⟨hg, fun cur h => ?_⟩
      simp only [crashCandleTick, Option.some.injEq] at h
      subst h
      exact ⟨⟨le_refl _, le_refl _, le_refl _, le_refl _⟩, hp⟩
  | some cur =>
      obtain ⟨hcur_inv, hcur_min⟩ := hc cur rfl
      simp only [crashCandleTick]
      by_cases helapsed : dur ≤ now - start
      · rw [if_pos helapsed]
        have hgroups1 : ∀ c ∈ groups ++ [completeCandleGroup cur], candleInv c := by
          intro c hmem
          rcases List.mem_append.1 hmem with hmem | hmem
          · exact hg c hmem
          · rw [List.mem_singleton.1 hmem]
            exact hcur_inv
        refine ⟨?_, fun cur' h => ?_⟩
        · by_cases hth : MergeThreshold ≤ (groups ++ [completeCandleGroup cur]).length
          · rw [if_pos hth]
            exact candleInv_mergePairs _ hgroups1
          · rw [if_neg hth]
            exact hgroups1
        · simp only [Option.some.injEq] at h
          rw [← h]
          exact ⟨⟨le_refl _, le_refl _, le_refl _, le_refl _⟩, hp⟩
      · rw [if_neg helapsed]
        refine ⟨hg, fun cur' h => ?_⟩
        simp only [Option.some.injEq] at h
        subst h
        obtain ⟨a, b, -, -⟩ := hcur_inv
        refine ⟨⟨le_trans (min_le_left _ _) a,
          le_trans b (le_max_left _ _),
          min_le_right _ _,
          le_max_right _ _⟩, le_min hcur_min hp⟩

lemma foldl_crashCandleTick_aggInv :
    ∀ (ticks : List (ℚ × ℤ)) (st : AggregatorState), aggInv st →
      (∀ t ∈ ticks, 0 ≤ t.1) →
      aggInv (ticks.foldl (fun st t => crashCandleTick st t.1 t.2) st)
  | [], st, hst, _ => hst
  | t :: ticks, st, hst, hp => by
      rw [List.foldl_cons]
      exact foldl_crashCandleTick_aggInv ticks _
        (crashCandleTick_aggInv st t.1 t.2 hst (hp t (by simp)))
        (fun x hx => hp x (by simp [hx]))

lemma finalizeCrashCandles_inv (st : AggregatorState) (rugged : Bool)
    (hst : aggInv st) :
    ∀ c ∈ finalizeCrashCandles st rugged, candleInv c := by
  obtain ⟨hg, hc⟩ := hst
  obtain ⟨groups, curOpt, dur, start⟩ := st
  cases curOpt with
  | none => exact hg
  | some cur =>
      obtain ⟨⟨a, b, c0, d0⟩, hmin⟩ := hc cur rfl
      simp only [finalizeCrashCandles]
      by_cases hcomp : cur.IsComplete = true
      · simpa [hcomp] using hg
      · rw [if_neg hcomp]
        intro c hmem
        rcases List.mem_append.1 hmem with hmem | hmem
        · exact hg c hmem
        · rw [List.mem_singleton.1 hmem]
          cases rugged with
          | false => exact ⟨a, b, c0, d0⟩
          | true =>
              refine ⟨by simpa using le_trans hmin a, b, le_refl _, ?_⟩
              simpa using le_trans hmin (le_trans a b)

/-- Claim C6: for every completed `CandleGroup` produced by the candle
aggregator during a crash game — including the final candle frozen at game
end when the game rugs, whose close is forced to `0` and min set to `0` — the
invariant `min ≤ open ≤ max` and `min ≤ close ≤ max` holds, for any sequence
of nonnegative tick prices (the crash loop floors its price at `0`,
src/ws/crash_unified.go lines 152-154). -/
theorem crashCandles_ohlc_inv (ticks : List (ℚ × ℤ)) (rugged : Bool)
    (hp : ∀ t ∈ ticks, 0 ≤ t.1) :
    ∀ c ∈ runCrashCandles ticks rugged, candleInv c := by
  unfold runCrashCandles
  exact finalizeCrashCandles_inv _ rugged
    (foldl_crashCandleTick_aggInv ticks _ ⟨by simp, by simp⟩ hp)

/-- Witness for `crashCandles_ohlc_inv`: a concrete two-tick rugged game. -/
theorem crashCandles_ohlc_inv_witness :
    (∀ t ∈ [((1 : ℚ), (0 : ℤ)), (3 / 2, 6000)], 0 ≤ t.1) ∧
    ∀ c ∈ runCrashCandles [((1 : ℚ), (0 : ℤ)), (3 / 2, 6000)] true, candleInv c :=
  ⟨by norm_num,
    crashCandles_ohlc_inv [((1 : ℚ), (0 : ℤ)), (3 / 2, 6000)] true (by norm_num)⟩

/-! ## C5: the crash engine with explicit rug flag (src/game/engine.go) -/

/-- Modelled from the spec: `math.Sqrt` is a standard-library collaborator
outside this repository.  The claims settled here use only that the square
root is total, deterministic and nonnegative on nonnegative input, so it is
modelled by the rational approximation `sqrt(num*den)/den`. -/
def ratSqrt (q : ℚ) : ℚ :=
  (Nat.sqrt (q.num.toNat * q.den) : ℚ) / (q.den : ℚ)

lemma ratSqrt_nonneg (q : ℚ) : 0 ≤ ratSqrt q := by
  unfold ratSqrt
  positivity

namespace Engine

/-- The engine constants (src/game/engine.go lines 7-18). -/
def StartingPrice : ℚ := 1

def MaxTicks : ℕ := 5000

def RugProb : ℚ := 1 / 100

def GodCandleChance : ℚ := 1 / 500

def GodCandleMult : ℚ := 5 / 2

def BigMoveChance : ℚ := 3 / 25

def BigMoveMin : ℚ := 2 / 25

def BigMoveMax : ℚ := 1 / 2

def DriftMin : ℚ := -(1 / 25)

def DriftMax : ℚ := 1 / 25

/-- `game.GameResult` as constructed by `CalculateGame` in src/game/engine.go
lines 90-95: peak multiplier, final price, rug flag and tick count. -/
structure GameResult where
  PeakMultiplier : ℚ
  FinalPrice : ℚ
  Rugged : Bool
  TotalTicks : ℕ

/-- The mutable loop state of `CalculateGame` (src/game/engine.go lines
24-28) plus the RNG cursor. -/
structure SimState where
  price : ℚ
  peak : ℚ
  tick : ℕ
  rugged : Bool
  momentum : ℚ
  cursor : ℕ

/-- The dynamic rug probability (src/game/engine.go lines 31-38): reduced
100/5-fold during upward momentum, increased 5-fold during downward
momentum. -/
def dynamicRugProb (momentum : ℚ) : ℚ :=
  if 1 / 20 < momentum then RugProb * (1 / 20)
  else if momentum < -(1 / 50) then RugProb * (1 / 5)
  else RugProb

/-- The body of one loop iteration after the rug check (src/game/engine.go
lines 46-87): a god-candle draw (consumed unconditionally, applied when it
fires and the price is at most 100), otherwise a big move or drift+noise,
followed by the zero floor, peak tracking and the momentum update. -/
def tickBody (u : ℕ → ℚ) (s : SimState) (c : ℕ) : SimState :=
  if u c < GodCandleChance ∧ s.price ≤ 100 then
    let price := s.price * GodCandleMult
    { s with
      price := price
      peak := max s.peak price
      tick := s.tick + 1
      cursor := c + 1 }
  else
    let change :=
      if u (c + 1) < BigMoveChance then
        let move := BigMoveMin + u (c + 2) * (BigMoveMax - BigMoveMin)
        if 1 / 2 < u (c + 3) then move else -move
      else
        let drift := DriftMin + u (c + 2) * (DriftMax - DriftMin)
        let volatility := 3 / 200 * min 15 (ratSqrt s.price)
        let noise := volatility * (2 * u (c + 3) - 1)
        drift + noise
    let price0 := s.price * (1 + change)
    let price := if price0 < 0 then 0 else price0
    { s with
      price := price
      peak := max s.peak price
      momentum := s.momentum * (9 / 10) + change * (1 / 10)
      tick := s.tick + 1
      cursor := c + 4 }

/-- One iteration of the `for tick < MaxTicks` loop (src/game/engine.go lines
30-88).  A halted state (rugged, or the tick ceiling reached) is a fixed
point.  The rug draw is consumed only when `tick > 50` (Go short-circuits the
conjunction `tick > 50 && rng.Float64() < rugProb`). -/
def step (u : ℕ → ℚ) (s : SimState) : SimState :=
  if s.rugged ∨ MaxTicks ≤ s.tick then s
  else if 50 < s.tick then
    if u s.cursor < dynamicRugProb s.momentum then
      { s with rugged := true, cursor := s.cursor + 1 }
    else tickBody u s (s.cursor + 1)
  else tickBody u s s.cursor

/-- The initial loop state (src/game/engine.go lines 24-28). -/
def initState : SimState :=
  ⟨StartingPrice, StartingPrice, 0, false, 0, 0⟩

/-- The loop state after the `MaxTicks` bounded iterations of the engine loop
(halted states are fixed points, so this is the state at loop exit). -/
def finalSimState (u : ℕ → ℚ) : SimState :=
  (step u)^[MaxTicks] initState

/-- `CalculateGame` (src/game/engine.go lines 20-96) over an explicit RNG
stream. -/
def CalculateGameWith (u : ℕ → ℚ) : GameResult :=
  ⟨(finalSimState u).peak, (finalSimState u).price,
    (finalSimState u).rugged, (finalSimState u).tick⟩

/-- `CalculateGame serverSeed gameID` seeds the stream from
`serverSeed + "-" + gameID` (src/game/engine.go lines 21-22). -/
def CalculateGame (serverSeed gameID : String) : GameResult :=
  CalculateGameWith (NewSeededRNG (serverSeed ++ "-" ++ gameID))

lemma mkGameResult_proj (s : SimState) :
    ((⟨s.peak, s.price, s.rugged, s.tick⟩ : GameResult).Rugged = s.rugged)
    ∧ ((⟨s.peak, s.price, s.rugged, s.tick⟩ : GameResult).TotalTicks = s.tick) :=
  ⟨rfl, rfl⟩

lemma tickBody_rugged (u : ℕ → ℚ) (s : SimState) (c : ℕ) :
    (tickBody u s c).rugged = s.rugged := by
  unfold tickBody
  split
  · rfl
  · rfl

lemma tickBody_tick (u : ℕ → ℚ) (s : SimState) (c : ℕ) :
    (tickBody u s c).tick = s.tick + 1 := by
  unfold tickBody
  split
  · rfl
  · rfl

lemma step_invariant (u : ℕ → ℚ) :
    ∀ n : ℕ, n ≤ MaxTicks →
      (((step u)^[n] initState).rugged = false → ((step u)^[n] initState).tick = n)
      ∧ (((step u)^[n] initState).rugged = true →
          50 < ((step u)^[n] initState).tick
            ∧ ((step u)^[n] initState).tick < MaxTicks) := by
  intro n
  induction n with
  | zero =>
      intro _
      exact ⟨fun _ => rfl, fun h => by simp [initState] at h⟩
  | succ n ih =>
      intro hn
      obtain ⟨ih0, ih1⟩ := ih (by omega)
      rw [Function.iterate_succ_apply']
      set s := (step u)^[n] initState with hs
      by_cases hr : s.rugged = true
      · have hfix : step u s = s := by
          unfold step
          rw [if_pos (Or.inl hr)]
        rw [hfix]
        exact ⟨fun h => absurd h (by simp [hr]), fun _ => ih1 hr⟩
      · have hr' : s.rugged = false := by
          cases h : s.rugged
          · rfl
          · exact absurd h hr
        have htick : s.tick = n := ih0 hr'
        have hlt : ¬ (MaxTicks ≤ s.tick) := by
          rw [htick]
          unfold MaxTicks at hn ⊢
          omega
        unfold step
        rw [if_neg (by simp [hr', hlt])]
        by_cases h50 : 50 < s.tick
        · rw [if_pos h50]
          by_cases hrug : u s.cursor < dynamicRugProb s.momentum
          · rw [if_pos hrug]
            refine ⟨fun h => by simp at h, fun _ => ?_⟩
            constructor
            · simpa [htick] using h50
            · show s.tick < MaxTicks
              omega
          · rw [if_neg hrug]
            refine ⟨fun _ => ?_, fun h => ?_⟩
            · rw [tickBody_tick, htick]
            · rw [tickBody_rugged] at h
              exact absurd h hr
        · rw [if_neg h50]
          refine ⟨fun _ => ?_, fun h => ?_⟩
          · rw [tickBody_tick, htick]
          · rw [tickBody_rugged] at h
            exact absurd h hr

/-- Claim C5: the crash simulation of src/game/engine.go returns a result of
shape (peakMultiplier, finalPrice, totalTicks, rugged) — the fields of
`Engine.GameResult` — where the rugged flag is true if and only if the
simulation terminated early because the probabilistic rug check fired (the
check being skipped during the initial warm-up window of 50 ticks, so a
rugged game always shows more than 50 ticks), and false exactly when the
simulation instead ran to the tick ceiling of `MaxTicks` ticks. -/
theorem engine_rugged_iff_early_termination (u : ℕ → ℚ) :
    ((CalculateGameWith u).Rugged = true
      ↔ (CalculateGameWith u).TotalTicks < MaxTicks)
    ∧ ((CalculateGameWith u).Rugged = true → 50 < (CalculateGameWith u).TotalTicks)
    ∧ ((CalculateGameWith u).Rugged = false
      → (CalculateGameWith u).TotalTicks = MaxTicks) := by
  have hfin : finalSimState u = (step u)^[MaxTicks] initState := rfl
  obtain ⟨h0, h1⟩ := step_invariant u MaxTicks (le_refl _)
  rw [← hfin] at h0 h1
  have hR : (CalculateGameWith u).Rugged = (finalSimState u).rugged :=
    mkGameResult_proj (finalSimState u) |>.1
  have hT : (CalculateGameWith u).TotalTicks = (finalSimState u).tick :=
    mkGameResult_proj (finalSimState u) |>.2
  rw [hR, hT]
  refine ⟨⟨fun h => (h1 h).2, fun h => ?_⟩, fun h => (h1 h).1, fun h => h0 h⟩
  cases hr : (finalSimState u).rugged
  · rw [h0 hr] at h
    exact absurd h (lt_irrefl _)
  · rfl

end Engine

/-! ## The clamped predetermined-peak engine (src/unnamed/part_010 lines
21-133, first `CalculateGame` variant) -/

namespace GameV1

/-- Constants (src/unnamed/part_010 lines 8-19). -/
def StartingPrice : ℚ := 1

def MaxTicks : ℕ := 5000

def RugProb : ℚ := 1 / 100

def GodCandleChance : ℚ := 1 / 500

def GodCandleMult : ℚ := 5 / 2

def BigMoveChance : ℚ := 3 / 25

def BigMoveMin : ℚ := 2 / 25

def BigMoveMax : ℚ := 1 / 2

def DriftMin : ℚ := -(1 / 25)

def DriftMax : ℚ := 1 / 25

/-- `determineTargetPeak` (src/unnamed/part_010 lines 114-133): a weighted
band draw (40% / 30% / 18% / 9% / 3%) followed by a uniform position draw
inside the band; consumes exactly the first two draws of its stream. -/
def determineTargetPeakWith (u : ℕ → ℚ) : ℚ :=
  if u 0 < 2 / 5 then 1 + u 1 * (1 / 2)
  else if u 0 < 7 / 10 then 3 / 2 + u 1 * (3 / 2)
  else if u 0 < 22 / 25 then 3 + u 1 * 7
  else if u 0 < 97 / 100 then 10 + u 1 * 40
  else 50 + u 1 * 150

/-- The mutable loop state of the first `CalculateGame` variant
(src/unnamed/part_010 lines 28-31) plus the RNG cursor. -/
structure SimState where
  price : ℚ
  tick : ℕ
  peakReached : Bool
  rugged : Bool
  cursor : ℕ

/-- One tick of the first `CalculateGame` variant (src/unnamed/part_010 lines
34-104): before the peak is reached, only nonnegative moves with an exact
clamp to `targetPeak` (lines 35-63); afterwards, bidirectional moves with a
rug check, a zero floor and a hard cap at `targetPeak` (lines 68-104). -/
def step (u : ℕ → ℚ) (targetPeak : ℚ) (s : SimState) : SimState :=
  if s.rugged ∨ MaxTicks ≤ s.tick then s
  else if s.peakReached then
    let c := s.cursor
    if u c < RugProb then { s with rugged := true, cursor := c + 1 }
    else
      let change :=
        if u (c + 1) < BigMoveChance then
          if 1 / 2 < u (c + 3) then BigMoveMin + u (c + 2) * (BigMoveMax - BigMoveMin)
          else -(BigMoveMin + u (c + 2) * (BigMoveMax - BigMoveMin))
        else DriftMin + u (c + 2) * (DriftMax - DriftMin)
          + 3 / 200 * min 15 (ratSqrt s.price) * (2 * u (c + 3) - 1)
      let p0 := s.price * (1 + change)
      let p1 := if p0 < 0 then 0 else p0
      let p2 := if targetPeak < p1 then targetPeak else p1
      { s with price := p2, tick := s.tick + 1, cursor := c + 4 }
  else
    let c := s.cursor
    let god := u c < GodCandleChance ∧ s.price ≤ 100
    let change :=
      if god then GodCandleMult - 1
      else if u (c + 1) < BigMoveChance then
        BigMoveMin + u (c + 2) * (BigMoveMax - BigMoveMin)
      else u (c + 2) * DriftMax + 3 / 200 * min 15 (ratSqrt s.price) * u (c + 3)
    let cursor :=
      if god then c + 1
      else if u (c + 1) < BigMoveChance then c + 3
      else c + 4
    let p0 := s.price * (1 + change)
    if targetPeak ≤ p0 then
      { s with
        price := targetPeak
        peakReached := true
        tick := s.tick + 1
        cursor := cursor }
    else
      { s with price := p0, tick := s.tick + 1, cursor := cursor }

/-- The initial state (src/unnamed/part_010 lines 28-31): the peak-reached
flag starts true in the `peak = 1.0` edge case, and the cursor starts at 2
because `determineTargetPeak` consumed the first two draws. -/
def initState (targetPeak : ℚ) : SimState :=
  ⟨StartingPrice, 0, decide (targetPeak ≤ StartingPrice), false, 2⟩

/-- The state after `t` ticks of the first `CalculateGame` variant on stream
`u`. -/
def stateAt (u : ℕ → ℚ) (t : ℕ) : SimState :=
  (step u (determineTargetPeakWith u))^[t] (initState (determineTargetPeakWith u))

lemma determineTargetPeakWith_ge_one (u : ℕ → ℚ) (h : 0 ≤ u 1) :
    1 ≤ determineTargetPeakWith u := by
  unfold determineTargetPeakWith
  split_ifs <;> nlinarith

lemma ite_clamp_le (cap x : ℚ) : (if cap < x then cap else x) ≤ cap := by
  split_ifs with h
  · exact le_refl cap
  · exact le_of_not_lt h

lemma step_price_le (u : ℕ → ℚ) (targetPeak : ℚ) (s : SimState)
    (hs : s.price ≤ targetPeak) :
    (step u targetPeak s).price ≤ targetPeak := by
  unfold step
  by_cases h1 : s.rugged = true ∨ MaxTicks ≤ s.tick
  · rw [if_pos h1]
    exact hs
  rw [if_neg h1]
  by_cases h2 : s.peakReached = true
  · rw [if_pos h2]
    by_cases h3 : u s.cursor < RugProb
    · rw [if_pos h3]
      exact hs
    · rw [if_neg h3]
      exact ite_clamp_le targetPeak _
  · rw [if_neg h2]
    dsimp only
    split_ifs <;> dsimp only <;> linarith

end GameV1

/-- `VerifyGamePeak` (src/game/verify.go lines 6-10): recomputes the
predetermined peak from the seed material `serverSeed + "-" + gameID` — with
no `"-peak"` suffix — by running `determineTargetPeak` on a fresh main-stream
generator. -/
def VerifyGamePeak (serverSeed gameID : String) : ℚ :=
  GameV1.determineTargetPeakWith (NewSeededRNG (serverSeed ++ "-" ++ gameID))

/-- Claim C2 (amended): in the clamped predetermined-peak crash engine (the
first `CalculateGame` variant of src/unnamed/part_010, whose growth phase
clamps the price to `targetPeak` exactly and whose post-peak phase enforces
the hard cap `price ≤ targetPeak`), the simulated price is at most the
predetermined peak at every tick, both pre- and post-peak.  (The second,
`GeneratePeakMultiplier`-based variant enforces no such cap — see the
counterexample theorem.) -/
theorem crashV1_price_le_peak (u : ℕ → ℚ) (hu : ∀ n, 0 ≤ u n ∧ u n < 1)
    (t : ℕ) :
    (GameV1.stateAt u t).price ≤ GameV1.determineTargetPeakWith u := by
  induction t with
  | zero =>
      show (GameV1.initState (GameV1.determineTargetPeakWith u)).price ≤ _
      exact le_trans (le_refl 1)
        (GameV1.determineTargetPeakWith_ge_one u (hu 1).1)
  | succ t ih =>
      show ((GameV1.step u (GameV1.determineTargetPeakWith u))^[t + 1]
        (GameV1.initState (GameV1.determineTargetPeakWith u))).price
          ≤ GameV1.determineTargetPeakWith u
      rw [Function.iterate_succ_apply']
      exact GameV1.step_price_le u _ _ ih

/-- Witness for `crashV1_price_le_peak` at the constant stream 1/2, tick 3. -/
theorem crashV1_price_le_peak_witness :
    (∀ n : ℕ, 0 ≤ (fun _ : ℕ => (1 : ℚ) / 2) n ∧ (fun _ : ℕ => (1 : ℚ) / 2) n < 1)
    ∧ (GameV1.stateAt (fun _ => 1 / 2) 3).price
        ≤ GameV1.determineTargetPeakWith (fun _ => 1 / 2) :=
  ⟨fun _ => by norm_num, crashV1_price_le_peak (fun _ => 1 / 2)
    (fun _ => by norm_num) 3⟩

/-! ## The GeneratePeakMultiplier-based engine (src/unnamed/part_010 lines
141-328, second `CalculateGame` variant) -/

namespace GameV2

/-- Constants (src/unnamed/part_010 lines 141-168). -/
def StartingPrice : ℚ := 1

def GodCandleChance : ℚ := 1 / 500

def GodCandleMult : ℚ := 5 / 2

def BigMoveChance : ℚ := 3 / 25

def BigMoveMin : ℚ := 2 / 25

def BigMoveMax : ℚ := 1 / 2

def DriftMin : ℚ := -(1 / 25)

def DriftMax : ℚ := 1 / 25

def RugProbBeforePeak : ℚ := 1 / 10000

def RugProbAfterPeak : ℚ := 1 / 10

def PeakVeryLow : ℚ := 1 / 2

def PeakLow : ℚ := 17 / 20

def PeakMedium : ℚ := 19 / 20

def PeakHigh : ℚ := 99 / 100

def PeakExtreme : ℚ := 1

def PeakMin : ℚ := 1

def PeakVeryLowMax : ℚ := 3 / 2

def PeakLowMax : ℚ := 3

def PeakMediumMax : ℚ := 10

def PeakHighMax : ℚ := 50

def PeakExtremeMax : ℚ := 200

/-- `GeneratePeakMultiplier` (src/unnamed/part_010 lines 172-209) as a
function of its RNG stream: a single draw selects the band
(50%/35%/10%/4%/1%) and its position inside the band, followed by the final
`peak < PeakMin` floor. -/
def GeneratePeakMultiplierWith (u : ℕ → ℚ) : ℚ :=
  let randValue := u 0
  let peak :=
    if randValue < PeakVeryLow then
      PeakMin + randValue / PeakVeryLow * (PeakVeryLowMax - PeakMin)
    else if randValue < PeakLow then
      PeakVeryLowMax
        + (randValue - PeakVeryLow) / (PeakLow - PeakVeryLow)
          * (PeakLowMax - PeakVeryLowMax)
    else if randValue < PeakMedium then
      PeakLowMax
        + (randValue - PeakLow) / (PeakMedium - PeakLow)
          * (PeakMediumMax - PeakLowMax)
    else if randValue < PeakHigh then
      PeakMediumMax
        + (randValue - PeakMedium) / (PeakHigh - PeakMedium)
          * (PeakHighMax - PeakMediumMax)
    else
      PeakHighMax
        + (randValue - PeakHigh) / (PeakExtreme - PeakHigh)
          * (PeakExtremeMax - PeakHighMax)
  if peak < PeakMin then PeakMin else peak

/-- `GeneratePeakMultiplier serverSeed gameID` draws from the distinct
sub-seed `serverSeed + "-" + gameID + "-peak"`
(src/unnamed/part_010 line 173). -/
def GeneratePeakMultiplier (serverSeed gameID : String) : ℚ :=
  GeneratePeakMultiplierWith (NewSeededRNG (serverSeed ++ "-" ++ gameID ++ "-peak"))

/-- The mutable loop state of the second `CalculateGame` variant
(src/unnamed/part_010 lines 221-225) plus the RNG cursor and an explicit
halted flag for the `break` (the source keeps no rugged flag and the result
carries none). -/
structure SimState where
  price : ℚ
  peak : ℚ
  tick : ℕ
  reached : Bool
  halted : Bool
  momentum : ℚ
  cursor : ℕ

/-- One iteration of the `for tick < 10000` loop (src/unnamed/part_010 lines
228-319): rug check (draw consumed only when `tick > 20`, probability
`RugProbBeforePeak` before the predetermined peak is reached and
`RugProbAfterPeak` after), then the reached-flag update, then god candle /
big move / drift with direction biases that reverse once the peak was
reached, then the `0.5` price floor, peak tracking and momentum update.
There is no clamp of `price` to the predetermined peak anywhere. -/
def step (u : ℕ → ℚ) (peakMultiplier : ℚ) (s : SimState) : SimState :=
  if s.halted ∨ 10000 ≤ s.tick then s
  else if 20 < s.tick
      ∧ u s.cursor < (if s.reached then RugProbAfterPeak else RugProbBeforePeak) then
    { s with halted := true, cursor := s.cursor + 1 }
  else
    let c := if 20 < s.tick then s.cursor + 1 else s.cursor
    let reached := if peakMultiplier ≤ s.price then true else s.reached
    if u c < GodCandleChance ∧ s.price ≤ 100 then
      let directionThreshold : ℚ := if reached then 2 / 5 else 3 / 5
      let price := if u (c + 1) < directionThreshold
        then s.price / GodCandleMult else s.price * GodCandleMult
      { s with
        price := price
        peak := max s.peak price
        reached := reached
        tick := s.tick + 1
        cursor := c + 2 }
    else
      let change :=
        if u (c + 1) < BigMoveChance then
          let move := BigMoveMin + u (c + 2) * (BigMoveMax - BigMoveMin)
          let upwardThreshold : ℚ := if reached then 2 / 5 else 3 / 5
          if u (c + 3) < upwardThreshold then move else -move
        else
          DriftMin + u (c + 2) * (DriftMax - DriftMin)
            + 3 / 200 * min 15 (ratSqrt s.price) * (2 * u (c + 3) - 1)
      let p0 := s.price * (1 + change)
      let price := if p0 < 1 / 2 then 1 / 2 else p0
      { s with
        price := price
        peak := max s.peak price
        reached := reached
        momentum := s.momentum * (9 / 10) + change * (1 / 10)
        tick := s.tick + 1
        cursor := c + 4 }

/-- The initial state (src/unnamed/part_010 lines 221-225). -/
def initState : SimState :=
  ⟨StartingPrice, StartingPrice, 0, false, false, 0, 0⟩

/-- The state after `t` loop iterations with predetermined peak
`peakMultiplier` on main stream `ms`. -/
def stateAt (peakMultiplier : ℚ) (ms : ℕ → ℚ) (t : ℕ) : SimState :=
  (step ms peakMultiplier)^[t] initState

/-- `game.GameResult` (src/unnamed/part_009 lines 14-20), as returned by the
second `CalculateGame` variant (src/unnamed/part_010 lines 321-327).  Note it
carries no rugged flag. -/
structure GameResult where
  PeakMultiplier : ℚ
  FinalPrice : ℚ
  TotalTicks : ℕ
  ServerSeed : String
  GameID : String

/-- `CalculateGame` (src/unnamed/part_010 lines 213-328) over explicit peak
and main RNG streams. -/
def CalculateGameWith (pk ms : ℕ → ℚ) (serverSeed gameID : String) : GameResult :=
  ⟨GeneratePeakMultiplierWith pk,
    (stateAt (GeneratePeakMultiplierWith pk) ms 10000).price,
    (stateAt (GeneratePeakMultiplierWith pk) ms 10000).tick,
    serverSeed, gameID⟩

/-- `CalculateGame serverSeed gameID`: the peak stream is seeded from
`serverSeed + "-" + gameID + "-peak"` and the simulation stream from
`serverSeed + "-" + gameID` (src/unnamed/part_010 lines 214-219). -/
def CalculateGame (serverSeed gameID : String) : GameResult :=
  CalculateGameWith (NewSeededRNG (serverSeed ++ "-" ++ gameID ++ "-peak"))
    (NewSeededRNG (serverSeed ++ "-" ++ gameID)) serverSeed gameID

lemma mkGameResultV2_proj (a b : ℚ) (c : ℕ) (d e : String) :
    (GameResult.mk a b c d e).PeakMultiplier = a :=
  rfl

end GameV2

/-! ## C1: determinism of the crash simulation -/

/-- Claim C1: for every server seed string and game id, running the crash
simulation twice yields identical output (the full result record, hence the
same peakMultiplier, finalPrice and totalTicks — and the same rugged flag for
the engine variant that carries one), because the simulation and the seeded
generator are pure functions of their input strings with no hidden state: the
RNG stream obtained from the same seed material is the same on every query. -/
theorem crash_simulation_deterministic (S G : String) :
    GameV2.CalculateGame S G = GameV2.CalculateGame S G
    ∧ Engine.CalculateGame S G = Engine.CalculateGame S G
    ∧ (∀ n, NewSeededRNG (S ++ "-" ++ G) n = NewSeededRNG (S ++ "-" ++ G) n) :=
  ⟨rfl, rfl, fun _ => rfl⟩

/-! ## C2: the peak cap, refuted on the second engine -/

/-- The formal reading of claim C2 for the `GeneratePeakMultiplier`-based
predetermined-peak simulation: at every tick of every game (any valid peak
and main RNG streams), the simulated price is at most the predetermined peak
multiplier. -/
def crashPriceCapClaim : Prop :=
  ∀ pk ms : ℕ → ℚ, (∀ n, 0 ≤ pk n ∧ pk n < 1) → (∀ n, 0 ≤ ms n ∧ ms n < 1) →
    ∀ t : ℕ,
      (GameV2.stateAt (GameV2.GeneratePeakMultiplierWith pk) ms t).price
        ≤ GameV2.GeneratePeakMultiplierWith pk

/-- A peak stream drawing 0, giving the minimal predetermined peak 1.0. -/
def cexPeakStream : ℕ → ℚ := fun _ => 0

/-- A main stream whose first tick is a big upward move of 29%. -/
def cexMainStream : ℕ → ℚ :=
  fun n => if n = 0 then 9 / 10 else if n = 2 then 1 / 2 else 0

/-- Counterexample to claim C2: the `GeneratePeakMultiplier`-based crash
engine (src/unnamed/part_010 lines 213-328) never clamps the price to the
predetermined peak.  With a peak stream drawing 0 the predetermined peak is
1.0, yet after one tick with a big upward move the price is 1.29 > 1.0. -/
theorem crashPriceCap_counterexample : ¬ crashPriceCapClaim := by
  intro h
  have hpk : GameV2.GeneratePeakMultiplierWith cexPeakStream = 1 := by
    norm_num [GameV2.GeneratePeakMultiplierWith, cexPeakStream, GameV2.PeakVeryLow,
      GameV2.PeakMin, GameV2.PeakVeryLowMax]
  have h1 := h cexPeakStream cexMainStream
    (fun n => by norm_num [cexPeakStream])
    (fun n => by unfold cexMainStream; split_ifs <;> norm_num) 1
  rw [hpk] at h1
  have hstate : (GameV2.stateAt 1 cexMainStream 1).price = 129 / 100 := by
    simp only [GameV2.stateAt, Function.iterate_one]
    norm_num [GameV2.step, GameV2.initState, cexMainStream, GameV2.StartingPrice,
      GameV2.GodCandleChance, GameV2.GodCandleMult, GameV2.BigMoveChance,
      GameV2.BigMoveMin, GameV2.BigMoveMax, GameV2.RugProbBeforePeak,
      GameV2.RugProbAfterPeak]
  rw [hstate] at h1
  norm_num at h1

/-! ## C3: the peak sub-seed and the independent verifier -/

/-- The formal reading of claim C3's final conjunct: the independent verifier
`VerifyGamePeak` computes the same peak as the predetermined-peak
simulation. -/
def verifierMatchesSimulationClaim : Prop :=
  ∀ S G : String, VerifyGamePeak S G = (GameV2.CalculateGame S G).PeakMultiplier

/-- Counterexample to claim C3 as stated: at serverSeed `"abc"`, gameId
`"g1"`, `VerifyGamePeak` — which seeds from `"abc-g1"` with no `"-peak"`
suffix and uses the two-draw `determineTargetPeak` band formula — returns a
different peak than the simulation's `GeneratePeakMultiplier`, which seeds
from `"abc-g1-peak"` and uses a one-draw band formula. -/
theorem verifierPeak_counterexample : ¬ verifierMatchesSimulationClaim := by
  intro h
  have hc := h "abc" "g1"
  have hsim : (GameV2.CalculateGame "abc" "g1").PeakMultiplier
      = GameV2.GeneratePeakMultiplierWith
          (NewSeededRNG ("abc" ++ "-" ++ "g1" ++ "-peak")) :=
    GameV2.mkGameResultV2_proj _ _ _ _ _
  rw [hsim] at hc
  have e0 : NewSeededRNG ("abc" ++ "-" ++ "g1") 0
      = (6216337121594497 : ℚ) / 9007199254740992 := by
    have hn : rngStep^[0 + 1] (seedStringHash ("abc" ++ "-" ++ "g1")) % 2 ^ 53
        = 6216337121594497 := by rfl
    simp only [NewSeededRNG, hn]
    norm_num
  have e1 : NewSeededRNG ("abc" ++ "-" ++ "g1") 1
      = (5843140000314108 : ℚ) / 9007199254740992 := by
    have hn : rngStep^[1 + 1] (seedStringHash ("abc" ++ "-" ++ "g1")) % 2 ^ 53
        = 5843140000314108 := by rfl
    simp only [NewSeededRNG, hn]
    norm_num
  have f0 : NewSeededRNG ("abc" ++ "-" ++ "g1" ++ "-peak") 0
      = (5976353535400953 : ℚ) / 9007199254740992 := by
    have hn : rngStep^[0 + 1] (seedStringHash ("abc" ++ "-" ++ "g1" ++ "-peak")) % 2 ^ 53
        = 5976353535400953 := by rfl
    simp only [NewSeededRNG, hn]
    norm_num
  have hv : VerifyGamePeak "abc" "g1" = 11137754441291325 / 4503599627370496 := by
    unfold VerifyGamePeak GameV1.determineTargetPeakWith
    rw [e0, e1]
    norm_num
  have hg : GameV2.GeneratePeakMultiplierWith
      (NewSeededRNG ("abc" ++ "-" ++ "g1" ++ "-peak"))
      = 69379104707847063 / 31525197391593472 := by
    unfold GameV2.GeneratePeakMultiplierWith
    rw [f0]
    norm_num [GameV2.PeakVeryLow, GameV2.PeakLow, GameV2.PeakMedium,
      GameV2.PeakHigh, GameV2.PeakExtreme, GameV2.PeakMin, GameV2.PeakVeryLowMax,
      GameV2.PeakLowMax, GameV2.PeakMediumMax, GameV2.PeakHighMax,
      GameV2.PeakExtremeMax]
  rw [hv, hg] at hc
  norm_num at hc

/-- Claim C3 (amended): the predetermined peak multiplier of the
`GeneratePeakMultiplier`-based simulation is drawn from the distinct sub-seed
`serverSeed + "-" + gameID + "-peak"`, is a pure function of
(serverSeed, gameId) alone, and is unchanged by any change to the main
simulation stream (hence by how many draws the live simulation consumes);
however the independent verifier `VerifyGamePeak` draws from the main seed
material without the `"-peak"` suffix using a different band formula, and so
does not in general compute the simulation's peak (see the counterexample). -/
theorem predetermined_peak_from_sub_seed (pk ms ms' : ℕ → ℚ) (S G : String) :
    (GameV2.CalculateGameWith pk ms S G).PeakMultiplier
      = GameV2.GeneratePeakMultiplierWith pk
    ∧ (GameV2.CalculateGameWith pk ms S G).PeakMultiplier
      = (GameV2.CalculateGameWith pk ms' S G).PeakMultiplier
    ∧ GameV2.GeneratePeakMultiplier S G
      = GameV2.GeneratePeakMultiplierWith (NewSeededRNG (S ++ "-" ++ G ++ "-peak"))
    ∧ (GameV2.CalculateGame S G).PeakMultiplier = GameV2.GeneratePeakMultiplier S G := by
  refine ⟨GameV2.mkGameResultV2_proj _ _ _ _ _, ?_, rfl, ?_⟩
  · exact (GameV2.mkGameResultV2_proj _ _ _ _ _).trans
      (GameV2.mkGameResultV2_proj _ _ _ _ _).symm
  · exact GameV2.mkGameResultV2_proj _ _ _ _ _
